import Mathlib

/-!
Verification of the core logic of `src/src/app/wordPuzzleFinder.tsx`
(the "guess-word" React component).

JavaScript strings are modelled as lists of characters (`JStr`); the
component's four text-state fields (`letters`, `length`, `pattern`,
`excludedLetters`) become a `SearchState` record; JS truthiness of a
string is emptiness of the list.  Pure functions of the source
(`buildQueryParams`, the filtering body of `fetchWords`,
`validateInputs`, `handleSubmit`, the `onChange` sanitizers and the
status handling of `fetchWords`) are translated definition by
definition below.
-/

/-- A JavaScript string, modelled as its list of characters. -/
abbrev JStr := List Char

/-- JS `String.prototype.toUpperCase`, characterwise (`Char.toUpper`
matches it on the basic-latin inputs this component handles). -/
def toUpperJS (s : JStr) : JStr := s.map Char.toUpper

/-- JS `String.prototype.toLowerCase`, characterwise. -/
def toLowerJS (s : JStr) : JStr := s.map Char.toLower

/-- JS `Number()` on the digit-only strings the sanitized `length`
field holds (`Number("") = 0`, matching the fold's base case). -/
def toNumber (s : JStr) : Nat := s.foldl (fun acc c => acc * 10 + (c.toNat - 48)) 0

/-- The four text-state fields of the component
(`letters`, `length`, `pattern`, `excludedLetters` in the source). -/
structure SearchState where
  letters : JStr
  length : JStr
  pattern : JStr
  excludedLetters : JStr
deriving DecidableEq

/-- One element of the service response: `{ word: string, defs?: string[] }`. -/
structure WordItem where
  word : JStr
  defs : Option (List JStr) := none
deriving DecidableEq

/-- Validation message of `validateInputs` for empty criteria. -/
def emptyCriteriaMsg : JStr := "Enter at least one search criteria".toList

/-- Validation message of `validateInputs` for a pattern/length mismatch. -/
def lengthMismatchMsg : JStr := "Pattern length must match word length".toList

/-- Error message thrown by `fetchWords` on HTTP 429. -/
def rateLimitedMsg : JStr := "API rate limit exceeded".toList

/-- Error message thrown by `fetchWords` on any other non-ok status. -/
def fetchFailedMsg : JStr := "Failed to fetch words".toList

/-- Notice set by `fetchWords` when the filtered list is empty. -/
def noMatchesMsg : JStr := "No matches found".toList

/-- `buildQueryParams` of the source: synthesizes a wildcard pattern from
`length` when no pattern is given, lowercases the pattern into `sp`,
encodes exclusions as space-separated negated letters into `q`, and
always appends `max=200` and `md=d`.  A `URLSearchParams` value is
modelled as the ordered list of appended key/value pairs. -/
def buildQueryParams (st : SearchState) : List (JStr × JStr) :=
  let finalPattern :=
    if st.pattern.isEmpty && !st.length.isEmpty then
      List.replicate (toNumber st.length) '?'
    else st.pattern
  (if !finalPattern.isEmpty then [("sp".toList, toLowerJS finalPattern)] else []) ++
  (if !st.excludedLetters.isEmpty then
      [("q".toList,
        List.intercalate [' ']
          ((toLowerJS st.excludedLetters).map (fun l => ['-', l])))]
    else []) ++
  [("max".toList, "200".toList), ("md".toList, "d".toList)]

/-- The filter predicate inside `fetchWords`: uppercase the candidate,
then check length (when `length` is non-empty), required letters
(when `letters` is non-empty) and excluded letters (when
`excludedLetters` is non-empty).  `word.includes(l)` on a single
character is character membership. -/
def keepWord (st : SearchState) (item : WordItem) : Bool :=
  let word := toUpperJS item.word
  (st.length.isEmpty || word.length == toNumber st.length) &&
  (st.letters.isEmpty || st.letters.all (fun l => word.contains l)) &&
  (st.excludedLetters.isEmpty || !(st.excludedLetters.any (fun l => word.contains l)))

/-- The `filteredWords` computation of `fetchWords`: filter the response
by `keepWord`, then map each kept item to its uppercased word. -/
def filterWords (st : SearchState) (data : List WordItem) : List JStr :=
  (data.filter (keepWord st)).map (fun item => toUpperJS item.word)

/-- `validateInputs` of the source, returning the error string
(`""`, i.e. `[]`, means valid). -/
def validateInputs (st : SearchState) : JStr :=
  if st.letters.isEmpty && st.pattern.isEmpty && st.length.isEmpty then
    emptyCriteriaMsg
  else if !st.pattern.isEmpty && !st.length.isEmpty &&
      st.pattern.length != toNumber st.length then
    lengthMismatchMsg
  else []

/-- `handleSubmit` of the source up to the network call: a validation
failure sets the error and returns without fetching (`Except.error`);
otherwise the fetch is issued with `buildQueryParams` (`Except.ok`). -/
def handleSubmit (st : SearchState) : Except JStr (List (JStr × JStr)) :=
  let v := validateInputs st
  if !v.isEmpty then Except.error v else Except.ok (buildQueryParams st)

/-- Outcome of a successful `fetchWords`: the `results` list passed to
`setResults` and the string passed to `setError` (a "no matches"
notice or `""`). -/
structure FetchOutcome where
  results : List JStr
  notice : JStr
deriving DecidableEq

/-- The response handling of `fetchWords` after `fetch` resolves with an
HTTP status and (for ok statuses) a parsed body: status 429 throws the
rate-limit message, any other non-2xx status throws the generic
message (`Response.ok` is status 200-299), and an ok response is
filtered; the caught message becomes the error state (`Except.error`). -/
def processResponse (st : SearchState) (status : Nat) (body : List WordItem) :
    Except JStr FetchOutcome :=
  if status = 429 then Except.error rateLimitedMsg
  else if ¬(200 ≤ status ∧ status ≤ 299) then Except.error fetchFailedMsg
  else
    let filteredWords := filterWords st body
    Except.ok ⟨filteredWords, if filteredWords.isEmpty then noMatchesMsg else []⟩

/-- The `onChange` sanitizer of the letters and excluded-letters inputs:
`value.toUpperCase().replace(/[^A-Z]/g, "")`. -/
def sanitizeLetters (raw : JStr) : JStr :=
  (toUpperJS raw).filter (fun c => decide ('A' ≤ c ∧ c ≤ 'Z'))

/-- The `onChange` sanitizer of the pattern input:
`value.toUpperCase().replace(/[^A-Z?]/g, "")`. -/
def sanitizePattern (raw : JStr) : JStr :=
  (toUpperJS raw).filter (fun c => decide (('A' ≤ c ∧ c ≤ 'Z') ∨ c = '?'))

/-- The `onChange` sanitizer of the length input:
`value.replace(/\D/g, "")`. -/
def sanitizeLength (raw : JStr) : JStr :=
  raw.filter (fun c => decide ('0' ≤ c ∧ c ≤ '9'))

/-- An input event on one of the four form fields, carrying the raw
`e.target.value`. -/
inductive InputEvent where
  | editLetters (raw : JStr)
  | editExcluded (raw : JStr)
  | editLength (raw : JStr)
  | editPattern (raw : JStr)

/-- State update performed by the corresponding `onChange` handler. -/
def applyEvent (st : SearchState) (e : InputEvent) : SearchState :=
  match e with
  | InputEvent.editLetters raw => { st with letters := sanitizeLetters raw }
  | InputEvent.editExcluded raw => { st with excludedLetters := sanitizeLetters raw }
  | InputEvent.editLength raw => { st with length := sanitizeLength raw }
  | InputEvent.editPattern raw => { st with pattern := sanitizePattern raw }

/-- The component's initial state: all four `useState` fields are `""`. -/
def initialState : SearchState := ⟨[], [], [], []⟩

/-- The Result Filter keep-condition as the specification words it
(spec section 4.3), stated over the uppercased candidate `w`:
(length absent or equal) and (required letters absent or all present)
and (excluded letters absent or none present). -/
def SpecKeep (st : SearchState) (w : JStr) : Prop :=
  (st.length = [] ∨ w.length = toNumber st.length) ∧
  (st.letters = [] ∨ ∀ c ∈ st.letters, c ∈ w) ∧
  (st.excludedLetters = [] ∨ ∀ c ∈ st.excludedLetters, c ∉ w)

instance (st : SearchState) (w : JStr) : Decidable (SpecKeep st w) := by
  unfold SpecKeep; infer_instance

/-- Modelled from the spec: the positional-pattern matcher that spec
sections 4.3/glossary describe ("a fixed-length string mixing literal
letters and wildcards, constraining each word position"); the source
contains no pattern matcher, which is what claim C2 is about. -/
def matchesPattern (p w : JStr) : Bool :=
  p.length == w.length && (List.zip p w).all (fun pc => pc.1 == '?' || pc.1 == pc.2)

/-! ### Helper lemmas -/

theorem filter_map_swap {α β : Type} (f : α → β) (p : β → Bool) (l : List α) :
    (l.map f).filter p = (l.filter (fun x => p (f x))).map f := by
  induction l with
  | nil => rfl
  | cons x xs ih =>
    simp only [List.map_cons, List.filter_cons]
    cases h : p (f x) <;> simp [h, ih]

theorem keepWord_eq_decide (st : SearchState) (item : WordItem) :
    keepWord st item = decide (SpecKeep st (toUpperJS item.word)) := by
  have h : keepWord st item = true ↔ SpecKeep st (toUpperJS item.word) := by
    simp only [keepWord, SpecKeep, Bool.and_eq_true, Bool.or_eq_true,
      Bool.not_eq_true', List.isEmpty_eq_true, beq_iff_eq, List.all_eq_true,
      List.any_eq_false, List.contains_eq_any_beq, List.any_eq_true,
      beq_iff_eq]
    constructor
    · rintro ⟨⟨h1, h2⟩, h3⟩
      refine ⟨h1, ?_, ?_⟩
      · rcases h2 with h2 | h2
        · exact Or.inl h2
        · refine Or.inr fun c hc => ?_
          rcases h2 c hc with ⟨x, hx, rfl⟩
          exact hx
      · rcases h3 with h3 | h3
        · exact Or.inl h3
        · refine Or.inr fun c hc hmem => ?_
          exact h3 c hc ⟨c, hmem, rfl⟩
    · rintro ⟨h1, h2, h3⟩
      refine ⟨⟨h1, ?_⟩, ?_⟩
      · rcases h2 with h2 | h2
        · exact Or.inl h2
        · exact Or.inr fun c hc => ⟨c, h2 c hc, rfl⟩
      · rcases h3 with h3 | h3
        · exact Or.inl h3
        · refine Or.inr fun c hc => ?_
          rintro ⟨x, hx, rfl⟩
          exact h3 c hc hx
  cases hb : keepWord st item
  · rw [hb] at h
    have : ¬ SpecKeep st (toUpperJS item.word) := fun hs => by
      simp [hs] at h
    simp [this]
  · rw [hb] at h
    simp [h.mp rfl]

theorem mem_filterWords_specKeep {st : SearchState} {data : List WordItem} {w : JStr}
    (h : w ∈ filterWords st data) : SpecKeep st w := by
  unfold filterWords at h
  rcases List.mem_map.mp h with ⟨item, hmem, rfl⟩
  rcases List.mem_filter.mp hmem with ⟨_, hk⟩
  rw [keepWord_eq_decide] at hk
  exact of_decide_eq_true hk

theorem char_toNat_ofNat_of_valid (m : Nat) (h : Nat.isValidChar m) :
    (Char.ofNat m).toNat = m := by
  simp only [Char.ofNat]
  rw [dif_pos h]
  rfl

theorem char_toUpper_toUpper (c : Char) : c.toUpper.toUpper = c.toUpper := by
  by_cases h : c.toNat ≥ 97 ∧ c.toNat ≤ 122
  · have h1 : c.toUpper = Char.ofNat (c.toNat - 32) := by
      simp only [Char.toUpper]
      rw [if_pos h]
    have ht : (Char.ofNat (c.toNat - 32)).toNat = c.toNat - 32 :=
      char_toNat_ofNat_of_valid _ (Or.inl (by omega))
    rw [h1]
    simp only [Char.toUpper]
    rw [if_neg (by rw [ht]; omega)]
  · have h1 : c.toUpper = c := by
      simp only [Char.toUpper]
      rw [if_neg h]
    rw [h1]
    exact h1

theorem toUpperJS_idem (s : JStr) : toUpperJS (toUpperJS s) = toUpperJS s := by
  induction s with
  | nil => rfl
  | cons c cs ih =>
    simp only [toUpperJS, List.map_cons, List.map_map] at ih ⊢
    rw [char_toUpper_toUpper]
    exact congrArg _ ih

theorem keepWord_output (st : SearchState) (item : WordItem) :
    keepWord st ⟨toUpperJS item.word, none⟩ = keepWord st item := by
  simp only [keepWord]
  rw [toUpperJS_idem]

theorem toLower_replicate (n : Nat) :
    toLowerJS (List.replicate n '?') = List.replicate n '?' := by
  simp only [toLowerJS, List.map_replicate]
  rw [show Char.toLower '?' = '?' from by decide]

theorem mem_sanitizeLetters {raw : JStr} {c : Char} (h : c ∈ sanitizeLetters raw) :
    'A' ≤ c ∧ c ≤ 'Z' := of_decide_eq_true (List.mem_filter.mp h).2

theorem mem_sanitizePattern {raw : JStr} {c : Char} (h : c ∈ sanitizePattern raw) :
    ('A' ≤ c ∧ c ≤ 'Z') ∨ c = '?' := of_decide_eq_true (List.mem_filter.mp h).2

theorem mem_sanitizeLength {raw : JStr} {c : Char} (h : c ∈ sanitizeLength raw) :
    '0' ≤ c ∧ c ≤ '9' := of_decide_eq_true (List.mem_filter.mp h).2

/-- Fields after every input event hold only their sanitizer's alphabet:
letters and excluded letters are uppercase A-Z, the pattern is uppercase
A-Z plus the wildcard, the length is decimal digits. -/
def Sanitized (st : SearchState) : Prop :=
  (∀ c ∈ st.letters, 'A' ≤ c ∧ c ≤ 'Z') ∧
  (∀ c ∈ st.excludedLetters, 'A' ≤ c ∧ c ≤ 'Z') ∧
  (∀ c ∈ st.pattern, ('A' ≤ c ∧ c ≤ 'Z') ∨ c = '?') ∧
  (∀ c ∈ st.length, '0' ≤ c ∧ c ≤ '9')

theorem sanitized_initial : Sanitized initialState := by
  refine ⟨?_, ?_, ?_, ?_⟩ <;> intro c hc <;> cases hc

theorem sanitized_preserved (st : SearchState) (e : InputEvent) (h : Sanitized st) :
    Sanitized (applyEvent st e) := by
  obtain ⟨hl, he, hp, hn⟩ := h
  cases e with
  | editLetters raw => exact ⟨fun c hc => mem_sanitizeLetters hc, he, hp, hn⟩
  | editExcluded raw => exact ⟨hl, fun c hc => mem_sanitizeLetters hc, hp, hn⟩
  | editLength raw => exact ⟨hl, he, hp, fun c hc => mem_sanitizeLength hc⟩
  | editPattern raw => exact ⟨hl, he, fun c hc => mem_sanitizePattern hc, hn⟩

/-- The end-to-end scenario state: length "5", pattern "??RA?",
excluded letters "CYT", no required letters. -/
def e2eState : SearchState := ⟨[], "5".toList, "??RA?".toList, "CYT".toList⟩

/-- A state with only a positional pattern set. -/
def patternOnlyState : SearchState := ⟨[], [], "??RA?".toList, []⟩

/-- A candidate that matches none of the pattern's literal positions. -/
def falsePositiveItem : WordItem := ⟨"aaaaa".toList, none⟩

/-! ### Claim theorems -/

/-- C1: for every ordered candidate list and every constraint state, the
Result Filter output is exactly the candidates, uppercased, that satisfy
the spec's keep-condition (length absent or equal, required letters
absent or all present, excluded letters absent or none present), in the
original order, with no sorting or deduplication. -/
theorem result_filter_exact (st : SearchState) (data : List WordItem) :
    filterWords st data =
      (data.map (fun item => toUpperJS item.word)).filter
        (fun w => decide (SpecKeep st w)) := by
  rw [filter_map_swap]
  unfold filterWords
  rw [show (keepWord st) =
      (fun item => decide (SpecKeep st (toUpperJS item.word))) from
    funext (keepWord_eq_decide st)]

/-- C2 counterexample: the Result Filter does not re-check the positional
pattern.  With only the pattern "??RA?" set (a state that passes
validation), the service false positive "aaaaa" survives the filter as
"AAAAA" even though it does not match the pattern. -/
theorem filter_ignores_pattern_cex :
    "AAAAA".toList ∈ filterWords patternOnlyState [falsePositiveItem] ∧
    patternOnlyState.pattern ≠ [] ∧
    matchesPattern patternOnlyState.pattern "AAAAA".toList = false ∧
    validateInputs patternOnlyState = [] := by
  refine ⟨by decide, by decide, by decide, by decide⟩

/-- C2 amended: every word in the Result Filter output satisfies the
length, required-letters and excluded-letters constraints (the filter
re-checks those three), but the positional pattern is not re-checked. -/
theorem filter_rechecks_nonpattern (st : SearchState) (data : List WordItem)
    (w : JStr) (h : w ∈ filterWords st data) : SpecKeep st w :=
  mem_filterWords_specKeep h

/-- C2 amended, witness: the three non-pattern constraints hold of the
word "ZEBRA" kept by the filter in the end-to-end scenario. -/
theorem filter_rechecks_nonpattern_witness :
    SpecKeep e2eState "ZEBRA".toList :=
  filter_rechecks_nonpattern e2eState
    [⟨"zebra".toList, none⟩, ⟨"cobra".toList, none⟩] "ZEBRA".toList (by decide)

/-- C3: when required letters, pattern and length are all absent
(whatever the excluded letters), validation fails with the
empty-criteria message and the submission short-circuits: no
`LookupRequest` is built and no fetch is issued (`Except.error`). -/
theorem validator_empty_criteria (st : SearchState)
    (h1 : st.letters = []) (h2 : st.pattern = []) (h3 : st.length = []) :
    validateInputs st = emptyCriteriaMsg ∧
    handleSubmit st = Except.error emptyCriteriaMsg := by
  have hv : validateInputs st = emptyCriteriaMsg := by
    unfold validateInputs
    rw [if_pos]
    simp [h1, h2, h3]
  refine ⟨hv, ?_⟩
  unfold handleSubmit
  rw [hv]
  rfl

/-- C3 witness: with excluded letters "CYT" present but the other three
fields empty, validation still fails with the empty-criteria message. -/
theorem validator_empty_criteria_witness :
    validateInputs ⟨[], [], [], "CYT".toList⟩ = emptyCriteriaMsg ∧
    handleSubmit ⟨[], [], [], "CYT".toList⟩ = Except.error emptyCriteriaMsg :=
  validator_empty_criteria ⟨[], [], [], "CYT".toList⟩ rfl rfl rfl

/-- C4: when both pattern and length are present with differing lengths
the validator returns the length-mismatch message, and on every state
that is neither empty-criteria nor length-mismatched it returns ""
(valid). -/
theorem validator_mismatch_and_valid :
    (∀ st : SearchState, st.pattern ≠ [] → st.length ≠ [] →
        st.pattern.length ≠ toNumber st.length →
        validateInputs st = lengthMismatchMsg) ∧
    (∀ st : SearchState,
        ¬(st.letters = [] ∧ st.pattern = [] ∧ st.length = []) →
        ¬(st.pattern ≠ [] ∧ st.length ≠ [] ∧
            st.pattern.length ≠ toNumber st.length) →
        validateInputs st = []) := by
  constructor
  · intro st h1 h2 h3
    unfold validateInputs
    rw [if_neg, if_pos]
    · simp only [Bool.and_eq_true, Bool.not_eq_true', List.isEmpty_eq_false,
        bne_iff_ne]
      exact ⟨⟨h1, h2⟩, h3⟩
    · simp only [Bool.and_eq_true, List.isEmpty_eq_true]
      rintro ⟨⟨-, hp⟩, -⟩
      exact h1 hp
  · intro st h1 h2
    unfold validateInputs
    rw [if_neg, if_neg]
    · simp only [Bool.and_eq_true, Bool.not_eq_true', List.isEmpty_eq_false,
        bne_iff_ne]
      rintro ⟨⟨hp, hl⟩, hn⟩
      exact h2 ⟨hp, hl, hn⟩
    · simp only [Bool.and_eq_true, List.isEmpty_eq_true]
      rintro ⟨⟨hl, hp⟩, hn⟩
      exact h1 ⟨hl, hp, hn⟩

/-- C4 witness: pattern "??RA?" with length "4" is a mismatch, and
letters "AUL" alone validate. -/
theorem validator_mismatch_and_valid_witness :
    validateInputs ⟨[], "4".toList, "??RA?".toList, []⟩ = lengthMismatchMsg ∧
    validateInputs ⟨"AUL".toList, [], [], []⟩ = [] :=
  ⟨validator_mismatch_and_valid.1 ⟨[], "4".toList, "??RA?".toList, []⟩
      (by decide) (by decide) (by decide),
   validator_mismatch_and_valid.2 ⟨"AUL".toList, [], [], []⟩
      (by decide) (by decide)⟩

/-- C5: submitting length 5, pattern "??RA?", excluded "CYT" builds the
request `sp=??ra?`, `q=-c -y -t`, `max=200`, `md=d`, and filtering the
candidates ["zebra", "cobra"] under those constraints yields exactly
["ZEBRA"]. -/
theorem e2e_request_and_filter :
    handleSubmit e2eState = Except.ok
      [("sp".toList, "??ra?".toList), ("q".toList, "-c -y -t".toList),
       ("max".toList, "200".toList), ("md".toList, "d".toList)] ∧
    filterWords e2eState [⟨"zebra".toList, none⟩, ⟨"cobra".toList, none⟩] =
      ["ZEBRA".toList] := by
  constructor
  · rfl
  · rfl

/-- C6: with no explicit pattern and a present exact length of value
`n` (a positive integer, per the data model), the outbound `sp`
parameter of the built request is exactly `n` wildcard characters. -/
theorem synthesized_wildcard_sp (st : SearchState) (n : Nat)
    (h1 : st.pattern = []) (h2 : st.length ≠ [])
    (h3 : toNumber st.length = n) (h4 : 0 < n) :
    ∃ rest, buildQueryParams st =
      ("sp".toList, List.replicate n '?') :: rest := by
  refine ⟨(if !st.excludedLetters.isEmpty then
      [("q".toList,
        List.intercalate [' ']
          ((toLowerJS st.excludedLetters).map (fun l => ['-', l])))]
    else []) ++
    [("max".toList, "200".toList), ("md".toList, "d".toList)], ?_⟩
  unfold buildQueryParams
  have hp : st.pattern.isEmpty = true := by simp [h1]
  have hl : st.length.isEmpty = false := by simp [h2]
  have hne : (List.replicate n '?').isEmpty = false := by
    cases n with
    | zero => omega
    | succ m => rfl
  simp only [hp, hl, Bool.not_false, Bool.and_true, if_true, h3, hne,
    Bool.not_false, if_true, toLower_replicate]
  rfl

/-- C6 witness: length "5" and no pattern produce `sp` = five
wildcards. -/
theorem synthesized_wildcard_sp_witness :
    toNumber "5".toList = 5 ∧
    ∃ rest, buildQueryParams ⟨[], "5".toList, [], []⟩ =
      ("sp".toList, List.replicate 5 '?') :: rest :=
  ⟨by decide,
   synthesized_wildcard_sp ⟨[], "5".toList, [], []⟩ 5 rfl (by decide)
     (by decide) (by decide)⟩

/-- C7: the Result Filter is idempotent — re-filtering its own output
(each output word wrapped back into a candidate item) under the same
constraints returns that output unchanged. -/
theorem result_filter_idempotent (st : SearchState) (data : List WordItem) :
    filterWords st ((filterWords st data).map (fun w => ⟨w, none⟩)) =
      filterWords st data := by
  unfold filterWords
  induction data with
  | nil => rfl
  | cons i is ih =>
    rw [List.filter_cons]
    cases hk : keepWord st i
    · simpa using ih
    · simpa [keepWord_output, toUpperJS_idem, hk] using ih

/-- C8: a well-formed (2xx) response whose filtered result is empty —
in particular an empty candidate list — is a success carrying an empty
result list and the "no matches" notice, not an error; as an
`Except.ok` it is distinct from every transport failure
(`Except.error`). -/
theorem empty_result_is_success (st : SearchState) (status : Nat)
    (body : List WordItem) (h1 : 200 ≤ status) (h2 : status ≤ 299)
    (h3 : filterWords st body = []) :
    processResponse st status body = Except.ok ⟨[], noMatchesMsg⟩ := by
  unfold processResponse
  rw [if_neg (by omega), if_neg (not_not_intro ⟨h1, h2⟩)]
  simp [h3]

/-- C8 witness: an empty candidate list at status 200 yields the empty
success outcome with the "no matches" notice. -/
theorem empty_result_is_success_witness :
    filterWords e2eState [] = [] ∧
    processResponse e2eState 200 [] = Except.ok ⟨[], noMatchesMsg⟩ :=
  ⟨rfl, empty_result_is_success e2eState 200 [] (by decide) (by decide) rfl⟩

/-- C9 counterexample: on HTTP 429 the search fails with the message
"API rate limit exceeded", which is not the string "rate limit
exceeded" the claim quotes. -/
theorem rate_limit_message_cex :
    processResponse e2eState 429 [] = Except.error rateLimitedMsg ∧
    rateLimitedMsg ≠ "rate limit exceeded".toList ∧
    fetchFailedMsg ≠ "failed to fetch".toList :=
  ⟨rfl, by decide, by decide⟩

/-- C9 amended: HTTP 429 fails the search with the specific message
"API rate limit exceeded"; any other non-2xx status fails it with the
generic message "Failed to fetch words"; a 2xx status is parsed and
filtered into the success outcome. -/
theorem status_handling (st : SearchState) (status : Nat)
    (body : List WordItem) :
    (status = 429 →
        processResponse st status body = Except.error rateLimitedMsg) ∧
    (status ≠ 429 → ¬(200 ≤ status ∧ status ≤ 299) →
        processResponse st status body = Except.error fetchFailedMsg) ∧
    (200 ≤ status → status ≤ 299 →
        processResponse st status body = Except.ok
          ⟨filterWords st body,
           if (filterWords st body).isEmpty then noMatchesMsg else []⟩) := by
  refine ⟨?_, ?_, ?_⟩
  · intro h
    unfold processResponse
    rw [if_pos h]
  · intro h1 h2
    unfold processResponse
    rw [if_neg h1, if_pos h2]
  · intro h1 h2
    unfold processResponse
    rw [if_neg (by omega), if_neg (not_not_intro ⟨h1, h2⟩)]

/-- C9 amended, witness: statuses 429, 500 and 200 produce the
rate-limit error, the generic error, and the filtered success
respectively. -/
theorem status_handling_witness :
    processResponse e2eState 429 [] = Except.error rateLimitedMsg ∧
    processResponse e2eState 500 [] = Except.error fetchFailedMsg ∧
    processResponse e2eState 200 [⟨"zebra".toList, none⟩] =
      Except.ok ⟨["ZEBRA".toList], []⟩ := by
  refine ⟨(status_handling e2eState 429 []).1 rfl,
          (status_handling e2eState 500 []).2.1 (by decide) (by decide), ?_⟩
  rw [(status_handling e2eState 200 [⟨"zebra".toList, none⟩]).2.2
        (by decide) (by decide)]
  rfl

/-- C10: after any sequence of input events starting from the initial
state, the letters and excluded-letters fields hold only uppercase A-Z,
the pattern holds only uppercase A-Z and the wildcard, and the length
holds only digits; hence every state reaching the validator, query
builder and filter satisfies the sanitization invariant. -/
theorem input_sanitization_invariant (evs : List InputEvent) :
    Sanitized (List.foldl applyEvent initialState evs) := by
  have general : ∀ (l : List InputEvent) (st : SearchState), Sanitized st →
      Sanitized (List.foldl applyEvent st l) := by
    intro l
    induction l with
    | nil => intro st h; exact h
    | cons e es ih =>
      intro st h
      exact ih (applyEvent st e) (sanitized_preserved st e h)
  exact general evs initialState sanitized_initial
